import Mathlib

/-!
# Azure Blob remote backend: `lib/backup/azureblobremote/azureblob.go`

A shallow embedding of the `FS` handle of the Azure Blob backup backend and of
its methods `Init`, `MustStop`, `ListParts` and `DeletePart`.

* Go strings are byte sequences (`GoString`).
* A method call is a function from the handle before the call to an `Outcome`:
  a normal return, a panic, or a process exit (`log.Fatal`), each carrying the
  handle as the call left it.
* The operating system and the libraries the file calls (`os.Getenv`,
  `azblob.NewSharedKeyCredential`, `url.Parse`, the blob service behind
  `ListBlobsFlatSegment`) are parameters of the embedding.
-/

namespace AzureBlobRemote

/-! ## Go strings -/

/-- One byte of a Go string. -/
abbrev Byte := Fin 256

/-- A Go `string`: an immutable sequence of bytes. -/
abbrev GoString := List Byte

/-- The Go string literal with the given ASCII text. -/
def ascii (s : String) : GoString := s.data.map (fun c => Fin.ofNat c.toNat)

/-- Go `strings.HasPrefix(s, pre)`:
`len(s) >= len(pre) && s[0:len(pre)] == pre`. -/
def HasPrefix (s pre : GoString) : Bool :=
  decide (pre.length ≤ s.length) && s.take pre.length == pre

/-- Go `strings.HasSuffix(s, suf)`:
`len(s) >= len(suf) && s[len(s)-len(suf):] == suf`. -/
def HasSuffix (s suf : GoString) : Bool :=
  decide (suf.length ≤ s.length) && s.drop (s.length - suf.length) == suf

/-! ## Data model -/

/-- A Go `error` value: its message and, when it is an `azblob.StorageError`,
its service code. -/
structure GoError where
  msg : GoString
  serviceCode : Option GoString
  deriving DecidableEq, Repr

/-- The `azblob.SharedKeyCredential` built from an account name and key. -/
structure SharedKeyCredential where
  accountName : GoString
  accountKey : GoString
  deriving DecidableEq, Repr

/-- A parsed `url.URL`, kept as the text it was parsed from. -/
structure URL where
  raw : GoString
  deriving DecidableEq, Repr

/-- The `azblob.ContainerURL`: the container URL and the request pipeline, which
is determined by the credential it was made from. -/
structure ContainerURL where
  url : URL
  pipeline : SharedKeyCredential
  deriving DecidableEq, Repr

/-- The `FS` struct. `containerURL` is a pointer: `none` is `nil`. -/
structure FS where
  storageAccount : GoString
  storageAccessKey : GoString
  Container : GoString
  Dir : GoString
  containerURL : Option ContainerURL
  deriving DecidableEq, Repr

/-- Modelled from the spec: the declaration of `common.Part`
(`lib/backup/common`), a value with a path, a byte size and a content
fingerprint. -/
structure Part where
  path : GoString
  size : Nat
  fingerprint : GoString
  deriving DecidableEq, Repr

/-- How a method call ends: it returns `value`, it panics, or it terminates the
process (`log.Fatal`). `fs` is the handle as the call left it. -/
inductive Outcome (α : Type) where
  | returned (value : α) (fs : FS)
  | panicked (msg : GoString) (fs : FS)
  | exited (msg : GoString) (fs : FS)
  deriving DecidableEq, Repr

/-- The handle as the call left it. -/
def Outcome.state {α : Type} : Outcome α → FS
  | .returned _ fs => fs
  | .panicked _ fs => fs
  | .exited _ fs => fs

/-- The operating system and library functions `Init` calls. -/
structure Deps where
  /-- Go `os.Getenv`: the value of the variable, empty when it is not set. -/
  Getenv : GoString → GoString
  /-- The error of `azblob.NewSharedKeyCredential(accountName, accountKey)`;
  `none` is a `nil` error. -/
  NewSharedKeyCredential : GoString → GoString → Option GoError
  /-- Go `url.Parse`: `none` is a `nil` URL (the error is discarded by `Init`). -/
  Parse : GoString → Option URL

/-- Modelled from the spec: `logger.Panicf` of `lib/logger`, which raises an
unrecoverable assertion failure with the given message instead of returning to
its caller. -/
def Panicf {α : Type} (msg : GoString) (fs : FS) : Outcome α :=
  .panicked msg fs

/-- The message of the Go runtime panic raised by dereferencing a `nil`
pointer. -/
def nilDereference : GoString :=
  ascii "runtime error: invalid memory address or nil pointer dereference"

/-! ## `FS.Init` -/

/-- The loop `for strings.HasPrefix(fs.Dir, "/") { fs.Dir = fs.Dir[1:] }`. -/
def stripLeadingSlashes : GoString → GoString
  | [] => []
  | b :: rest =>
    if HasPrefix (b :: rest) (ascii "/") then stripLeadingSlashes rest else b :: rest

/-- The normalization of `fs.Dir` in `Init`: the stripping loop, then
`if !strings.HasSuffix(fs.Dir, "/") { fs.Dir += "/" }`. -/
def normalizeDir (dir : GoString) : GoString :=
  let dir := stripLeadingSlashes dir
  if !HasSuffix dir (ascii "/") then dir ++ ascii "/" else dir

/-- The credential step of `Init`: when a credential field is empty, read both
environment variables and, under the condition the code tests, store them. -/
def resolveCredentials (d : Deps) (fs : FS) : FS :=
  if fs.storageAccount.length == 0 || fs.storageAccessKey.length == 0 then
    let accountName := d.Getenv (ascii "AZURE_STORAGE_ACCOUNT")
    let accountKey := d.Getenv (ascii "AZURE_STORAGE_ACCESS_KEY")
    if accountName.length == 0 || accountKey.length == 0 then
      { fs with storageAccount := accountName, storageAccessKey := accountKey }
    else fs
  else fs

/-- The text `fmt.Sprintf("https://%s.blob.core.windows.net/%s", account, container)`. -/
def blobURLText (account container : GoString) : GoString :=
  ascii "https://" ++ account ++ ascii ".blob.core.windows.net/" ++ container

/-- The method `func (fs *FS) Init() error`. The returned value is the error;
`none` is `nil`. -/
def Init (d : Deps) (fs : FS) : Outcome (Option GoError) :=
  if fs.containerURL.isSome then
    Panicf (ascii "BUG: Init is already called") fs
  else
    let fs := { fs with Dir := normalizeDir fs.Dir }
    let fs := resolveCredentials d fs
    match d.NewSharedKeyCredential fs.storageAccount fs.storageAccessKey with
    | some err => .exited (ascii "Invalid credentials with error: " ++ err.msg) fs
    | none =>
      let p : SharedKeyCredential := ⟨fs.storageAccount, fs.storageAccessKey⟩
      match d.Parse (blobURLText fs.storageAccount fs.Container) with
      | none => .panicked nilDereference fs
      | some url => .returned none { fs with containerURL := some ⟨url, p⟩ }

/-! ## `FS.MustStop` -/

/-- The method `func (fs *FS) MustStop()`. -/
def MustStop (fs : FS) : FS :=
  { fs with containerURL := none }

/-! ## `FS.ListParts` and `FS.DeletePart` -/

/-- The `azblob.Marker`: a pointer to the continuation token. -/
structure Marker where
  Val : Option GoString
  deriving DecidableEq, Repr

/-- The method `Marker.NotDone`: `m.Val == nil || *m.Val != ""`. -/
def Marker.NotDone (m : Marker) : Bool :=
  match m.Val with
  | none => true
  | some v => v != []

/-- One entry of a listing segment. -/
structure BlobItem where
  Name : GoString
  deriving DecidableEq, Repr

/-- The response of `ListBlobsFlatSegment`: the items of the segment and the
marker of the next one. -/
structure ListBlobsFlatSegmentResponse where
  NextMarker : Marker
  BlobItems : List BlobItem
  deriving DecidableEq, Repr

/-- The blob service behind `ContainerURL.ListBlobsFlatSegment`: a response or
an error for each marker. -/
abbrev BlobService := Marker → Except GoError ListBlobsFlatSegmentResponse

/-- A run of a method that writes to standard output. -/
structure Run (α : Type) where
  stdout : List GoString
  outcome : Outcome α
  deriving DecidableEq, Repr

/-- The constant `azblob.ServiceCodeContainerAlreadyExists`. -/
def ServiceCodeContainerAlreadyExists : GoString := ascii "ContainerAlreadyExists"

/-- How `handleErrors` ends: it returns after printing `printed`, or it
terminates the process through `log.Fatal`. -/
inductive Handled where
  | continues (printed : List GoString)
  | fatal (msg : GoString)
  deriving DecidableEq, Repr

/-- The function `handleErrors(err error)`. -/
def handleErrors (err : Option GoError) : Handled :=
  match err with
  | none => .continues []
  | some e =>
    if e.serviceCode = some ServiceCodeContainerAlreadyExists then
      .continues [ascii "Received 409. Container already exists\n"]
    else .fatal e.msg

/-- The line `ListParts` prints for a blob. -/
def blobLine (b : BlobItem) : GoString :=
  ascii "\tBlob name: " ++ b.Name ++ ascii "\n"

/-- The marker loop of `ListParts` and the statement after it. `fuel` bounds the
number of times the loop condition is evaluated; `none` is fuel exhausted. -/
def listPartsLoop (svc : BlobService) (fs : FS) :
    Nat → Marker → List GoString → Option (Run (List Part × Option GoError))
  | 0, _, _ => none
  | fuel + 1, marker, out =>
    if marker.NotDone then
      match svc marker with
      | .error err =>
        match handleErrors (some err) with
        | .fatal msg => some ⟨out, .exited msg fs⟩
        | .continues printed => some ⟨out ++ printed, .panicked nilDereference fs⟩
      | .ok listBlob =>
        match handleErrors none with
        | .fatal msg => some ⟨out, .exited msg fs⟩
        | .continues printed =>
          listPartsLoop svc fs fuel listBlob.NextMarker
            (out ++ printed ++ listBlob.BlobItems.map blobLine)
    else some ⟨out, .panicked (ascii "implement me") fs⟩

/-- The method `func (fs *FS) ListParts() ([]common.Part, error)`. -/
def ListParts (svc : BlobService) (fuel : Nat) (fs : FS) :
    Option (Run (List Part × Option GoError)) :=
  match fs.containerURL with
  | none => some ⟨[], .panicked nilDereference fs⟩
  | some _ => listPartsLoop svc fs fuel ⟨none⟩ []

/-- The method `func (fs *FS) DeletePart(p common.Part) error`. -/
def DeletePart (fs : FS) (_p : Part) : Outcome (Option GoError) :=
  .panicked (ascii "implement me") fs

/-! ## Test doubles for the parameters -/

/-- An environment in which `AZURE_STORAGE_ACCOUNT` is `account`,
`AZURE_STORAGE_ACCESS_KEY` is `key` and no other variable is set. -/
def envOf (account key : GoString) : GoString → GoString := fun name =>
  if name = ascii "AZURE_STORAGE_ACCOUNT" then account
  else if name = ascii "AZURE_STORAGE_ACCESS_KEY" then key
  else []

/-- Libraries that accept what they are given: `NewSharedKeyCredential` returns
a `nil` error and `url.Parse` a URL, over the environment `envOf account key`. -/
def acceptingDeps (account key : GoString) : Deps where
  Getenv := envOf account key
  NewSharedKeyCredential := fun _ _ => none
  Parse := fun raw => some ⟨raw⟩

/-- The offset a marker of `pagedStore` stands for: the length of its token, 0
for the initial marker. -/
def markerOffset (m : Marker) : Nat :=
  match m.Val with
  | none => 0
  | some tok => tok.length

/-- A handle that is Ready: the one `Init` leaves for the account `acct`, the
key `a2V5`, the container `backups` and the directory `dir`. -/
def readyFS : FS :=
  { storageAccount := ascii "acct", storageAccessKey := ascii "a2V5",
    Container := ascii "backups", Dir := ascii "dir/",
    containerURL := some ⟨⟨ascii "https://acct.blob.core.windows.net/backups"⟩,
      ⟨ascii "acct", ascii "a2V5"⟩⟩ }

/-- A blob service that holds `blobs` in its listing order and serves them
`pageSize` at a time. The continuation token of the segment that starts at
offset `n` is a string of `n` bytes; the last segment carries the empty token. -/
def pagedStore (blobs : List GoString) (pageSize : Nat) : BlobService := fun m =>
  let rest := blobs.drop (markerOffset m)
  .ok { NextMarker :=
          ⟨some (if pageSize < rest.length
            then List.replicate (markerOffset m + pageSize) 1 else [])⟩
        BlobItems := (rest.take pageSize).map BlobItem.mk }

/-- A handle as the flags leave it: credentials, container and directory set,
`Init` not called yet. -/
def freshFS (account key container dir : GoString) : FS :=
  { storageAccount := account, storageAccessKey := key, Container := container,
    Dir := dir, containerURL := none }

/-- The service answers the listing that starts at marker `m` with exactly the
segments `pages`, one fetch each and none of them an error: every segment but
the last carries a marker that is not done, under which the next segment is
served, and the last carries a marker that is done. A segment may be empty and
segments may differ in size. -/
def servesPages (svc : BlobService) : Marker → List (List BlobItem) → Bool
  | _, [] => false
  | m, items :: rest =>
    match svc m with
    | .error _ => false
    | .ok r =>
      r.BlobItems == items &&
        (if r.NextMarker.NotDone then servesPages svc r.NextMarker rest else rest.isEmpty)

/-- A blob service that serves the given segments in order, whatever their
sizes. The continuation token of segment `i` is a string of `i` bytes; the last
segment carries the empty token. -/
def chainStore (pages : List (List GoString)) : BlobService := fun m =>
  .ok { NextMarker :=
          ⟨some (if markerOffset m + 1 < pages.length
            then List.replicate (markerOffset m + 1) 1 else [])⟩
        BlobItems := (pages.getD (markerOffset m) []).map BlobItem.mk }

/-! ## Go strings: prefixes and suffixes -/

theorem hasPrefix_iff (s pre : GoString) : HasPrefix s pre = true ↔ pre <+: s := by
  unfold HasPrefix
  rw [List.prefix_iff_eq_take]
  constructor
  · intro h
    simp only [Bool.and_eq_true, decide_eq_true_eq, beq_iff_eq] at h
    exact h.2.symm
  · intro h
    have hl : pre.length ≤ s.length := by
      have := congrArg List.length h
      rw [List.length_take] at this
      omega
    simp only [Bool.and_eq_true, decide_eq_true_eq, beq_iff_eq]
    exact ⟨hl, h.symm⟩

theorem hasSuffix_iff (s suf : GoString) : HasSuffix s suf = true ↔ suf <:+ s := by
  unfold HasSuffix
  rw [List.suffix_iff_eq_drop]
  constructor
  · intro h
    simp only [Bool.and_eq_true, decide_eq_true_eq, beq_iff_eq] at h
    exact h.2.symm
  · intro h
    have hl : suf.length ≤ s.length := by
      have := congrArg List.length h
      rw [List.length_drop] at this
      omega
    simp only [Bool.and_eq_true, decide_eq_true_eq, beq_iff_eq]
    exact ⟨hl, h.symm⟩

theorem ascii_slash : ascii "/" = [47] := by decide

theorem ascii_slash_slash : ascii "//" = [47, 47] := by decide

theorem hasPrefix_slash_iff (s : GoString) :
    HasPrefix s (ascii "/") = true ↔ ∃ t, s = 47 :: t := by
  rw [hasPrefix_iff, ascii_slash]
  cases s with
  | nil => simp
  | cons b t => simp [List.cons_prefix_cons, eq_comm]

theorem hasSuffix_slash_iff (s : GoString) :
    HasSuffix s (ascii "/") = true ↔ ∃ t, s = t ++ [47] := by
  rw [hasSuffix_iff, ascii_slash]
  constructor
  · rintro ⟨t, rfl⟩
    exact ⟨t, rfl⟩
  · rintro ⟨t, rfl⟩
    exact ⟨t, rfl⟩

/-! ## Directory normalization -/

theorem stripLeadingSlashes_cons (b : Byte) (rest : GoString) :
    stripLeadingSlashes (b :: rest) =
      if b = 47 then stripLeadingSlashes rest else b :: rest := by
  rw [stripLeadingSlashes]
  by_cases hb : b = 47
  · have h : HasPrefix (b :: rest) (ascii "/") = true :=
      (hasPrefix_slash_iff _).2 ⟨rest, by rw [hb]⟩
    rw [if_pos h, if_pos hb]
  · have h : ¬ HasPrefix (b :: rest) (ascii "/") = true := by
      rw [hasPrefix_slash_iff]
      rintro ⟨t, ht⟩
      exact hb (List.cons.inj ht).1
    rw [if_neg h, if_neg hb]

/-- What the stripping loop leaves is empty or starts with a byte other than
`/`. -/
theorem stripLeadingSlashes_shape (s : GoString) :
    stripLeadingSlashes s = [] ∨
      ∃ b t, stripLeadingSlashes s = b :: t ∧ b ≠ 47 := by
  induction s with
  | nil => exact Or.inl rfl
  | cons b rest ih =>
    rw [stripLeadingSlashes_cons]
    by_cases hb : b = 47
    · simpa [hb] using ih
    · exact Or.inr ⟨b, rest, by simp [hb], hb⟩

theorem stripLeadingSlashes_eq_nil_iff (s : GoString) :
    stripLeadingSlashes s = [] ↔ ∀ b ∈ s, b = 47 := by
  induction s with
  | nil => simp [stripLeadingSlashes]
  | cons b rest ih =>
    rw [stripLeadingSlashes_cons]
    by_cases hb : b = 47
    · simp [hb, ih]
    · simp [hb]

theorem stripLeadingSlashes_of_ne (b : Byte) (t : GoString) (hb : b ≠ 47) :
    stripLeadingSlashes (b :: t) = b :: t := by
  rw [stripLeadingSlashes_cons]
  simp [hb]

theorem normalizeDir_eq (dir : GoString) :
    normalizeDir dir =
      if HasSuffix (stripLeadingSlashes dir) (ascii "/") = true
      then stripLeadingSlashes dir else stripLeadingSlashes dir ++ [47] := by
  unfold normalizeDir
  rw [ascii_slash]
  by_cases h : HasSuffix (stripLeadingSlashes dir) [47] = true
  · simp [h]
  · simp [h]

theorem normalizeDir_of_nil (dir : GoString) (h : stripLeadingSlashes dir = []) :
    normalizeDir dir = [47] := by
  rw [normalizeDir_eq, h]
  have : ¬ HasSuffix [] (ascii "/") = true := by
    rw [hasSuffix_slash_iff]
    rintro ⟨t, ht⟩
    cases t <;> simp at ht
  simp [this]

/-- The normalized directory ends with `/`. -/
theorem normalizeDir_hasSuffix (dir : GoString) :
    HasSuffix (normalizeDir dir) (ascii "/") = true := by
  rw [normalizeDir_eq]
  by_cases h : HasSuffix (stripLeadingSlashes dir) (ascii "/") = true
  · simp [h]
  · simp only [h, if_false]
    exact (hasSuffix_slash_iff _).2 ⟨_, rfl⟩

/-- When the stripping loop leaves `b :: t`, the normalized directory starts
with `b` too. -/
theorem normalizeDir_of_cons (dir : GoString) (b : Byte) (t : GoString)
    (h : stripLeadingSlashes dir = b :: t) :
    ∃ u, normalizeDir dir = b :: u := by
  rw [normalizeDir_eq, h]
  by_cases hs : HasSuffix (b :: t) (ascii "/") = true
  · exact ⟨t, by simp [hs]⟩
  · exact ⟨t ++ [47], by simp [hs]⟩

theorem normalizeDir_idem (dir : GoString) :
    normalizeDir (normalizeDir dir) = normalizeDir dir := by
  rcases stripLeadingSlashes_shape dir with h | ⟨b, t, h, hb⟩
  · rw [normalizeDir_of_nil dir h]
    exact normalizeDir_of_nil [47] (by decide)
  · obtain ⟨u, hu⟩ := normalizeDir_of_cons dir b t h
    have hsuf := normalizeDir_hasSuffix dir
    rw [hu] at hsuf ⊢
    rw [normalizeDir_eq, stripLeadingSlashes_of_ne b u hb]
    simp [hsuf]

theorem hasSuffix_slash_slash_concat (d : GoString) :
    HasSuffix (d ++ [47]) (ascii "//") = true ↔ HasSuffix d (ascii "/") = true := by
  rw [hasSuffix_iff, hasSuffix_iff, ascii_slash, ascii_slash_slash,
    ← List.reverse_prefix, ← @List.reverse_prefix _ [47] d]
  simp [List.cons_prefix_cons]

theorem hasSuffix_slash_of_slash_slash (d : GoString)
    (h : HasSuffix d (ascii "//") = true) : HasSuffix d (ascii "/") = true := by
  rw [hasSuffix_iff] at h ⊢
  rw [ascii_slash_slash] at h
  rw [ascii_slash]
  exact List.IsSuffix.trans (List.suffix_cons 47 [47]) h

/-- The normalized directory ends with `//` exactly when what the stripping
loop left does. -/
theorem normalizeDir_slash_slash_iff_strip (dir : GoString) :
    HasSuffix (normalizeDir dir) (ascii "//") = true ↔
      HasSuffix (stripLeadingSlashes dir) (ascii "//") = true := by
  rw [normalizeDir_eq]
  by_cases h : HasSuffix (stripLeadingSlashes dir) (ascii "/") = true
  · simp [h]
  · rw [if_neg h, hasSuffix_slash_slash_concat]
    constructor
    · intro h1
      exact absurd h1 h
    · intro h2
      exact absurd (hasSuffix_slash_of_slash_slash _ h2) h

theorem strip_slash_slash_iff (dir : GoString) :
    HasSuffix (stripLeadingSlashes dir) (ascii "//") = true ↔
      (HasSuffix dir (ascii "//") = true ∧ ∃ b ∈ dir, b ≠ 47) := by
  induction dir with
  | nil =>
    have : ¬ HasSuffix [] (ascii "//") = true := by decide
    simp [stripLeadingSlashes, this]
  | cons b rest ih =>
    rw [stripLeadingSlashes_cons]
    by_cases hb : b = 47
    · subst hb
      rw [if_pos rfl, ih]
      simp only [hasSuffix_iff, ascii_slash_slash, List.suffix_cons_iff,
        List.mem_cons, exists_eq_or_imp, ne_eq, not_true_eq_false, false_or]
      constructor
      · rintro ⟨h1, h2⟩
        exact ⟨Or.inr h1, h2⟩
      · rintro ⟨h1 | h1, c, hc, hne⟩
        · have hr : rest = [47] := (List.cons.inj h1).2.symm
          subst hr
          simp at hc
          exact absurd hc hne
        · exact ⟨h1, c, hc, hne⟩
    · rw [if_neg hb]
      constructor
      · intro h
        exact ⟨h, b, List.mem_cons_self _ _, hb⟩
      · intro h
        exact h.1

/-! ## Claims on directory normalization -/

/-- C1: the normalization of the root directory performed by `FS.Init` (strip
every leading `/`, then append `/` unless the directory ends with `/`) is
idempotent: normalizing a normalized directory changes nothing. -/
theorem C1_normalizeDir_idempotent (x : GoString) :
    normalizeDir (normalizeDir x) = normalizeDir x :=
  normalizeDir_idem x

/-- C2, counterexample: the empty `Dir` is normalized to `/`, which starts with
`/`. -/
theorem C2_empty_dir_starts_with_slash :
    normalizeDir (ascii "") = ascii "/" ∧
      HasPrefix (normalizeDir (ascii "")) (ascii "/") = true := by
  decide

/-- C2, as amended: the normalized `Dir` starts with `/` exactly when the input
is empty or made of `/` bytes only (byte 47), and then it is the string `/`;
for every other input the normalized `Dir` does not start with `/`. -/
theorem C2_normalizeDir_leading_slash (dir : GoString) :
    (HasPrefix (normalizeDir dir) (ascii "/") = true ↔ ∀ b ∈ dir, b = 47) ∧
      (HasPrefix (normalizeDir dir) (ascii "/") = true → normalizeDir dir = ascii "/") := by
  have key : HasPrefix (normalizeDir dir) (ascii "/") = true ↔
      stripLeadingSlashes dir = [] := by
    rcases stripLeadingSlashes_shape dir with h | ⟨b, t, h, hb⟩
    · rw [normalizeDir_of_nil dir h]
      simp only [h, iff_true]
      decide
    · obtain ⟨u, hu⟩ := normalizeDir_of_cons dir b t h
      rw [hu, h, hasPrefix_slash_iff]
      constructor
      · rintro ⟨v, hv⟩
        exact absurd (List.cons.inj hv).1 hb
      · intro hnil
        cases hnil
  refine ⟨key.trans (stripLeadingSlashes_eq_nil_iff dir), fun h => ?_⟩
  rw [normalizeDir_of_nil dir (key.1 h), ascii_slash]

/-- C3, counterexample: the `Dir` `a//` is left as it is by the normalization
and ends with `//`. -/
theorem C3_trailing_slashes_kept :
    normalizeDir (ascii "a//") = ascii "a//" ∧
      HasSuffix (normalizeDir (ascii "a//")) (ascii "//") = true := by
  decide

/-- C3, as amended: the normalized `Dir` ends with `/`; it ends with `//`
exactly when the input ends with `//` and holds a byte other than `/` (byte
47), since trailing `/` bytes of the input are kept. -/
theorem C3_normalizeDir_trailing_slash (dir : GoString) :
    HasSuffix (normalizeDir dir) (ascii "/") = true ∧
      (HasSuffix (normalizeDir dir) (ascii "//") = true ↔
        (HasSuffix dir (ascii "//") = true ∧ ∃ b ∈ dir, b ≠ 47)) :=
  ⟨normalizeDir_hasSuffix dir,
    (normalizeDir_slash_slash_iff_strip dir).trans (strip_slash_slash_iff dir)⟩

/-! ## Credential resolution and `Init` -/

theorem resolveCredentials_Dir (d : Deps) (fs : FS) :
    (resolveCredentials d fs).Dir = fs.Dir := by
  unfold resolveCredentials
  split
  · dsimp only
    split <;> rfl
  · rfl

theorem resolveCredentials_Container (d : Deps) (fs : FS) :
    (resolveCredentials d fs).Container = fs.Container := by
  unfold resolveCredentials
  split
  · dsimp only
    split <;> rfl
  · rfl

theorem resolveCredentials_containerURL (d : Deps) (fs : FS) :
    (resolveCredentials d fs).containerURL = fs.containerURL := by
  unfold resolveCredentials
  split
  · dsimp only
    split <;> rfl
  · rfl

/-- A handle with both credential fields set is left as it is. -/
theorem resolveCredentials_of_set (d : Deps) (fs : FS)
    (ha : fs.storageAccount ≠ []) (hk : fs.storageAccessKey ≠ []) :
    resolveCredentials d fs = fs := by
  unfold resolveCredentials
  have h : (fs.storageAccount.length == 0 || fs.storageAccessKey.length == 0) = false := by
    simp [ha, hk]
  rw [h]
  rfl

/-- An environment with both variables set is never used. -/
theorem resolveCredentials_of_env_set (d : Deps) (fs : FS)
    (ha : d.Getenv (ascii "AZURE_STORAGE_ACCOUNT") ≠ [])
    (hk : d.Getenv (ascii "AZURE_STORAGE_ACCESS_KEY") ≠ []) :
    resolveCredentials d fs = fs := by
  unfold resolveCredentials
  have h : ((d.Getenv (ascii "AZURE_STORAGE_ACCOUNT")).length == 0 ||
      (d.Getenv (ascii "AZURE_STORAGE_ACCESS_KEY")).length == 0) = false := by
    simp [ha, hk]
  dsimp only
  rw [h]
  simp

theorem resolveCredentials_idem (d : Deps) (fs : FS) :
    resolveCredentials d (resolveCredentials d fs) = resolveCredentials d fs := by
  by_cases c2 : ((d.Getenv (ascii "AZURE_STORAGE_ACCOUNT")).length == 0 ||
      (d.Getenv (ascii "AZURE_STORAGE_ACCESS_KEY")).length == 0) = true
  · by_cases c1 : (fs.storageAccount.length == 0 || fs.storageAccessKey.length == 0) = true
    · have e : resolveCredentials d fs =
          { fs with storageAccount := d.Getenv (ascii "AZURE_STORAGE_ACCOUNT"),
                    storageAccessKey := d.Getenv (ascii "AZURE_STORAGE_ACCESS_KEY") } := by
        unfold resolveCredentials
        rw [if_pos c1]
        dsimp only
        rw [if_pos c2]
      rw [e]
      unfold resolveCredentials
      dsimp only
      rw [if_pos c2, if_pos c2]
    · have e : resolveCredentials d fs = fs := by
        unfold resolveCredentials
        rw [if_neg c1]
      rw [e, e]
  · have ha : d.Getenv (ascii "AZURE_STORAGE_ACCOUNT") ≠ [] := by
      intro h
      simp [h] at c2
    have hk : d.Getenv (ascii "AZURE_STORAGE_ACCESS_KEY") ≠ [] := by
      intro h
      simp [h] at c2
    rw [resolveCredentials_of_env_set d fs ha hk, resolveCredentials_of_env_set d fs ha hk]

/-- On a handle that is Ready `Init` panics at its first statement. -/
theorem Init_of_ready (d : Deps) (fs : FS) (h : fs.containerURL ≠ none) :
    Init d fs = .panicked (ascii "BUG: Init is already called") fs := by
  unfold Init Panicf
  have hs : fs.containerURL.isSome = true := by
    cases hc : fs.containerURL with
    | none => exact absurd hc h
    | some c => rfl
  rw [if_pos hs]

/-- What `Init` does on a handle whose `containerURL` is `nil`, by the answers
of the two library calls. -/
theorem Init_of_nil (d : Deps) (fs : FS) (h : fs.containerURL = none) :
    Init d fs =
      match d.NewSharedKeyCredential
          (resolveCredentials d { fs with Dir := normalizeDir fs.Dir }).storageAccount
          (resolveCredentials d { fs with Dir := normalizeDir fs.Dir }).storageAccessKey with
      | some err =>
        .exited (ascii "Invalid credentials with error: " ++ err.msg)
          (resolveCredentials d { fs with Dir := normalizeDir fs.Dir })
      | none =>
        match d.Parse (blobURLText
            (resolveCredentials d { fs with Dir := normalizeDir fs.Dir }).storageAccount
            (resolveCredentials d { fs with Dir := normalizeDir fs.Dir }).Container) with
        | none => .panicked nilDereference
            (resolveCredentials d { fs with Dir := normalizeDir fs.Dir })
        | some url => .returned none
            { resolveCredentials d { fs with Dir := normalizeDir fs.Dir } with
              containerURL := some ⟨url,
                ⟨(resolveCredentials d { fs with Dir := normalizeDir fs.Dir }).storageAccount,
                 (resolveCredentials d { fs with Dir := normalizeDir fs.Dir }).storageAccessKey⟩⟩ } := by
  unfold Init
  have hs : ¬ fs.containerURL.isSome = true := by simp [h]
  rw [if_neg hs]

/-- When `Init` returns, the handle was not Ready, the returned error is `nil`,
both library calls succeeded and the handle left is the one of the
normalization and credential steps with its `containerURL` set. -/
theorem Init_returned_inv (d : Deps) (fs fs1 : FS) (e : Option GoError)
    (h : Init d fs = .returned e fs1) :
    fs.containerURL = none ∧ e = none ∧
      d.NewSharedKeyCredential
        (resolveCredentials d { fs with Dir := normalizeDir fs.Dir }).storageAccount
        (resolveCredentials d { fs with Dir := normalizeDir fs.Dir }).storageAccessKey = none ∧
      ∃ url, d.Parse (blobURLText
          (resolveCredentials d { fs with Dir := normalizeDir fs.Dir }).storageAccount
          (resolveCredentials d { fs with Dir := normalizeDir fs.Dir }).Container) = some url ∧
        fs1 = { resolveCredentials d { fs with Dir := normalizeDir fs.Dir } with
                containerURL := some ⟨url,
                  ⟨(resolveCredentials d { fs with Dir := normalizeDir fs.Dir }).storageAccount,
                   (resolveCredentials d { fs with Dir := normalizeDir fs.Dir }).storageAccessKey⟩⟩ } := by
  cases hc : fs.containerURL with
  | some c =>
    rw [Init_of_ready d fs (by simp [hc])] at h
    cases h
  | none =>
    rw [Init_of_nil d fs hc] at h
    rw [← hc]
    generalize resolveCredentials d { fs with Dir := normalizeDir fs.Dir } = g at h ⊢
    cases hcred : d.NewSharedKeyCredential g.storageAccount g.storageAccessKey with
    | some err =>
      rw [hcred] at h
      cases h
    | none =>
      rw [hcred] at h
      cases hurl : d.Parse (blobURLText g.storageAccount g.Container) with
      | none =>
        rw [hurl] at h
        cases h
      | some url =>
        rw [hurl] at h
        cases h
        exact ⟨rfl, rfl, rfl, url, rfl, rfl⟩

/-- On a handle that is not Ready and that the normalization and the credential
step leave as it is, `Init` returns `nil` and sets `containerURL` when both
library calls succeed. -/
theorem Init_of_fixed (d : Deps) (g : FS) (url : URL)
    (hc : g.containerURL = none) (hd : normalizeDir g.Dir = g.Dir)
    (hr : resolveCredentials d g = g)
    (hcred : d.NewSharedKeyCredential g.storageAccount g.storageAccessKey = none)
    (hurl : d.Parse (blobURLText g.storageAccount g.Container) = some url) :
    Init d g = .returned none
      { g with containerURL := some ⟨url, ⟨g.storageAccount, g.storageAccessKey⟩⟩ } := by
  rw [Init_of_nil d g hc, hd]
  have hg : ({ g with Dir := g.Dir } : FS) = g := rfl
  rw [hg, hr, hcred, hurl]

/-- The credential fields `Init` leaves are those of its credential step, or
the ones it found when it panics on a handle that is Ready. -/
theorem Init_state_credentials (d : Deps) (fs : FS) (h : fs.containerURL = none) :
    (Init d fs).state.storageAccount =
        (resolveCredentials d { fs with Dir := normalizeDir fs.Dir }).storageAccount ∧
      (Init d fs).state.storageAccessKey =
        (resolveCredentials d { fs with Dir := normalizeDir fs.Dir }).storageAccessKey := by
  rw [Init_of_nil d fs h]
  split
  · exact ⟨rfl, rfl⟩
  · split
    · exact ⟨rfl, rfl⟩
    · exact ⟨rfl, rfl⟩

/-- The directory `Init` leaves on a handle that was not Ready is the
normalized one. -/
theorem Init_state_Dir (d : Deps) (fs : FS) (h : fs.containerURL = none) :
    (Init d fs).state.Dir = normalizeDir fs.Dir := by
  rw [Init_of_nil d fs h]
  split
  · exact resolveCredentials_Dir d _
  · split
    · exact resolveCredentials_Dir d _
    · exact resolveCredentials_Dir d _

/-! ## Claims on credentials and the lifecycle -/

/-- C4, counterexample: the explicit account `acct` is set and so is
`AZURE_STORAGE_ACCOUNT` (`other`), the key and `AZURE_STORAGE_ACCESS_KEY` are
empty; the credential step replaces the explicit account by `other`. -/
theorem C4_explicit_account_overwritten :
    (freshFS (ascii "acct") [] (ascii "backups") (ascii "dir")).storageAccount = ascii "acct" ∧
      (acceptingDeps (ascii "other") []).Getenv (ascii "AZURE_STORAGE_ACCOUNT") = ascii "other" ∧
      (resolveCredentials (acceptingDeps (ascii "other") [])
        (freshFS (ascii "acct") [] (ascii "backups") (ascii "dir"))).storageAccount
        = ascii "other" ∧
      (Init (acceptingDeps (ascii "other") [])
        (freshFS (ascii "acct") [] (ascii "backups") (ascii "dir"))).state.storageAccount
        = ascii "other" := by
  decide

/-- C4, as amended: when both explicit fields, `storageAccount` and
`storageAccessKey`, are non-empty, the credential step of `Init` changes
nothing and both fields hold their explicit values after `Init`, whatever the
environment holds. -/
theorem C4_explicit_pair_kept (d : Deps) (fs : FS)
    (ha : fs.storageAccount ≠ []) (hk : fs.storageAccessKey ≠ []) :
    resolveCredentials d fs = fs ∧
      (Init d fs).state.storageAccount = fs.storageAccount ∧
      (Init d fs).state.storageAccessKey = fs.storageAccessKey := by
  refine ⟨resolveCredentials_of_set d fs ha hk, ?_⟩
  cases hc : fs.containerURL with
  | some c =>
    rw [Init_of_ready d fs (by simp [hc])]
    exact ⟨rfl, rfl⟩
  | none =>
    have h := Init_state_credentials d fs hc
    rw [resolveCredentials_of_set d { fs with Dir := normalizeDir fs.Dir } ha hk] at h
    exact h

/-- C4, witness: the explicit pair `acct`, `a2V5` is kept in an environment
that sets both variables to other values. -/
theorem C4_explicit_pair_kept_witness :
    resolveCredentials (acceptingDeps (ascii "other") (ascii "b3RoZXI="))
        (freshFS (ascii "acct") (ascii "a2V5") (ascii "backups") (ascii "dir"))
        = freshFS (ascii "acct") (ascii "a2V5") (ascii "backups") (ascii "dir") ∧
      (Init (acceptingDeps (ascii "other") (ascii "b3RoZXI="))
        (freshFS (ascii "acct") (ascii "a2V5") (ascii "backups") (ascii "dir"))).state.storageAccount
        = ascii "acct" ∧
      (Init (acceptingDeps (ascii "other") (ascii "b3RoZXI="))
        (freshFS (ascii "acct") (ascii "a2V5") (ascii "backups") (ascii "dir"))).state.storageAccessKey
        = ascii "a2V5" :=
  C4_explicit_pair_kept (acceptingDeps (ascii "other") (ascii "b3RoZXI="))
    (freshFS (ascii "acct") (ascii "a2V5") (ascii "backups") (ascii "dir"))
    (by decide) (by decide)

/-- C5, the code at the failing input: both explicit fields are empty and both
environment variables are set (`acct`, `a2V5`); the credential step leaves both
fields empty, and `Init` returns `nil` with the handle Ready and its credentials
still empty. -/
theorem C5_environment_fallback_skipped :
    (acceptingDeps (ascii "acct") (ascii "a2V5")).Getenv (ascii "AZURE_STORAGE_ACCOUNT")
        = ascii "acct" ∧
      (acceptingDeps (ascii "acct") (ascii "a2V5")).Getenv (ascii "AZURE_STORAGE_ACCESS_KEY")
        = ascii "a2V5" ∧
      resolveCredentials (acceptingDeps (ascii "acct") (ascii "a2V5"))
        (freshFS [] [] (ascii "backups") (ascii "dir"))
        = freshFS [] [] (ascii "backups") (ascii "dir") ∧
      Init (acceptingDeps (ascii "acct") (ascii "a2V5"))
        (freshFS [] [] (ascii "backups") (ascii "dir"))
        = .returned none
            { storageAccount := [], storageAccessKey := [], Container := ascii "backups",
              Dir := ascii "dir/",
              containerURL := some ⟨⟨ascii "https://.blob.core.windows.net/backups"⟩, ⟨[], []⟩⟩ } := by
  decide

/-- C6, counterexample: both explicit fields and both environment variables are
empty; with a library that accepts the empty pair `Init` returns `nil` and
leaves the handle Ready. -/
theorem C6_blank_credentials_accepted :
    (resolveCredentials (acceptingDeps [] [])
        (freshFS [] [] (ascii "backups") (ascii "dir"))).storageAccount = [] ∧
      (resolveCredentials (acceptingDeps [] [])
        (freshFS [] [] (ascii "backups") (ascii "dir"))).storageAccessKey = [] ∧
      Init (acceptingDeps [] []) (freshFS [] [] (ascii "backups") (ascii "dir"))
        = .returned none
            { storageAccount := [], storageAccessKey := [], Container := ascii "backups",
              Dir := ascii "dir/",
              containerURL := some ⟨⟨ascii "https://.blob.core.windows.net/backups"⟩, ⟨[], []⟩⟩ } := by
  decide

/-- C6, as amended: `Init` has no check for missing credentials. On a handle
that is not Ready, blank or not, the pair left by the fallback step is handed
to `azblob.NewSharedKeyCredential`: when that call fails, `Init` terminates the
process with `Invalid credentials with error: ` and the error's message; when
it succeeds and the container URL parses, `Init` returns `nil` and leaves the
handle Ready with that pair as its credentials. `Init` never returns a non-nil
error. -/
theorem C6_init_has_no_missing_credentials_check (d : Deps) (fs : FS)
    (h : fs.containerURL = none) :
    (∀ err, d.NewSharedKeyCredential (Init d fs).state.storageAccount
        (Init d fs).state.storageAccessKey = some err →
      Init d fs = .exited (ascii "Invalid credentials with error: " ++ err.msg)
        (resolveCredentials d { fs with Dir := normalizeDir fs.Dir })) ∧
    (d.NewSharedKeyCredential (Init d fs).state.storageAccount
        (Init d fs).state.storageAccessKey = none →
      (d.Parse (blobURLText (Init d fs).state.storageAccount fs.Container)).isSome = true →
      ∃ fs1, Init d fs = .returned none fs1 ∧ fs1.containerURL.isSome = true ∧
        fs1.storageAccount =
          (resolveCredentials d { fs with Dir := normalizeDir fs.Dir }).storageAccount ∧
        fs1.storageAccessKey =
          (resolveCredentials d { fs with Dir := normalizeDir fs.Dir }).storageAccessKey) ∧
    (∀ e fs1, Init d fs = .returned e fs1 → e = none) := by
  obtain ⟨ha, hk⟩ := Init_state_credentials d fs h
  rw [ha, hk]
  have hI := Init_of_nil d fs h
  refine ⟨?_, ?_, ?_⟩
  · intro err herr
    rw [hI, herr]
  · intro hnone hparse
    rw [resolveCredentials_Container] at hI
    rw [hnone] at hI
    cases hp : d.Parse (blobURLText
        (resolveCredentials d { fs with Dir := normalizeDir fs.Dir }).storageAccount
        fs.Container) with
    | none => rw [hp] at hparse; simp at hparse
    | some url =>
      rw [hp] at hI
      exact ⟨_, hI, rfl, rfl, rfl⟩
  · intro e fs1 hret
    rw [hI] at hret
    split at hret
    · cases hret
    · split at hret
      · cases hret
      · cases hret
        rfl

/-- C6, witness: the handle and environment with every credential empty, and a
library that accepts the empty pair. -/
theorem C6_init_has_no_missing_credentials_check_witness :
    ∃ fs1, Init (acceptingDeps [] []) (freshFS [] [] (ascii "backups") (ascii "dir"))
        = .returned none fs1 ∧ fs1.containerURL.isSome = true ∧
      fs1.storageAccount = [] ∧ fs1.storageAccessKey = [] :=
  (C6_init_has_no_missing_credentials_check (acceptingDeps [] [])
    (freshFS [] [] (ascii "backups") (ascii "dir")) rfl).2.1 (by decide) (by decide)

/-- C7, counterexample: `Init` succeeds, `MustStop` is called, and a second
`Init` returns `nil` and leaves the handle Ready again. -/
theorem C7_init_after_stop_succeeds :
    Init (acceptingDeps [] [])
        (freshFS (ascii "acct") (ascii "a2V5") (ascii "backups") (ascii "dir"))
        = .returned none readyFS ∧
      Init (acceptingDeps [] []) (MustStop readyFS) = .returned none readyFS ∧
      readyFS.containerURL.isSome = true := by
  decide

/-- C7, as amended: `MustStop` puts the handle back in the state it had before
`Init` (`containerURL` is `nil`) and keeps no record of the stop. For every
handle on which `Init` succeeded and `MustStop` was then called, a second call
to `Init` in the same environment is not signalled as misuse: it returns `nil`
and leaves the handle Ready, equal to what the first `Init` left. -/
theorem C7_stop_then_init_succeeds (d : Deps) (fs fs1 : FS) (e : Option GoError)
    (h : Init d fs = .returned e fs1) :
    (MustStop fs1).containerURL = none ∧
      Init d (MustStop fs1) = .returned none fs1 := by
  obtain ⟨hc, he, hcred, url, hurl, hfs1⟩ := Init_returned_inv d fs fs1 e h
  have hu := resolveCredentials_containerURL d { fs with Dir := normalizeDir fs.Dir }
  have hd := resolveCredentials_Dir d { fs with Dir := normalizeDir fs.Dir }
  have hr := resolveCredentials_idem d { fs with Dir := normalizeDir fs.Dir }
  generalize resolveCredentials d { fs with Dir := normalizeDir fs.Dir } = g at *
  dsimp only at hu hd
  have hstop : MustStop fs1 = g := by
    rw [hfs1]
    unfold MustStop
    cases g
    simp only [FS.mk.injEq, true_and]
    rw [← hc]
    exact hu.symm
  rw [hstop]
  refine ⟨by rw [hu, hc], ?_⟩
  rw [hfs1]
  apply Init_of_fixed d g url (by rw [hu, hc]) _ hr hcred hurl
  rw [hd, normalizeDir_idem]

/-- C7, witness: the handle for `acct`, on which `Init` succeeds. -/
theorem C7_stop_then_init_succeeds_witness :
    (MustStop readyFS).containerURL = none ∧
      Init (acceptingDeps [] []) (MustStop readyFS) = .returned none readyFS :=
  C7_stop_then_init_succeeds (acceptingDeps [] [])
    (freshFS (ascii "acct") (ascii "a2V5") (ascii "backups") (ascii "dir"))
    readyFS none (by decide)

/-- C8: on every handle that is Ready (`containerURL` is not `nil`), `Init`
panics with `BUG: Init is already called` instead of returning, and the handle
it leaves is the handle it found: `Dir`, `storageAccount`, `storageAccessKey`,
`Container` and `containerURL` are unchanged. -/
theorem C8_double_init_panics (d : Deps) (fs : FS) (h : fs.containerURL ≠ none) :
    Init d fs = .panicked (ascii "BUG: Init is already called") fs ∧
      (Init d fs).state = fs := by
  have hI := Init_of_ready d fs h
  rw [hI]
  exact ⟨rfl, rfl⟩

/-- C8, witness: the Ready handle `readyFS`. -/
theorem C8_double_init_panics_witness :
    Init (acceptingDeps [] []) readyFS
        = .panicked (ascii "BUG: Init is already called") readyFS ∧
      (Init (acceptingDeps [] []) readyFS).state = readyFS :=
  C8_double_init_panics (acceptingDeps [] []) readyFS (by decide)

/-! ## `ListParts` and `DeletePart` -/

theorem listPartsLoop_done (svc : BlobService) (fs : FS) (fuel : Nat) (m : Marker)
    (out : List GoString) (hm : m.NotDone = false) :
    listPartsLoop svc fs (fuel + 1) m out
      = some ⟨out, .panicked (ascii "implement me") fs⟩ := by
  rw [listPartsLoop]
  simp [hm]

theorem listPartsLoop_step (blobs : List GoString) (pageSize : Nat) (fs : FS)
    (fuel : Nat) (m : Marker) (out : List GoString) (hm : m.NotDone = true) :
    listPartsLoop (pagedStore blobs pageSize) fs (fuel + 1) m out =
      listPartsLoop (pagedStore blobs pageSize) fs fuel
        ⟨some (if pageSize < (blobs.drop (markerOffset m)).length
          then List.replicate (markerOffset m + pageSize) 1 else [])⟩
        (out ++ (((blobs.drop (markerOffset m)).take pageSize).map
          (fun n => blobLine ⟨n⟩))) := by
  rw [listPartsLoop]
  simp only [hm, if_true, pagedStore, handleErrors, List.append_nil, List.map_map]
  rfl

/-- From a marker that is not done, the loop over a paged store prints the
blobs from the marker's offset on, each once and in the listing order, and then
reaches `panic("implement me")`. -/
theorem listPartsLoop_pagedStore (blobs : List GoString) (pageSize : Nat)
    (hp : 0 < pageSize) (fs : FS) :
    ∀ (fuel : Nat) (m : Marker) (out : List GoString), m.NotDone = true →
      (blobs.drop (markerOffset m)).length + 1 < fuel →
      listPartsLoop (pagedStore blobs pageSize) fs fuel m out =
        some ⟨out ++ (blobs.drop (markerOffset m)).map (fun n => blobLine ⟨n⟩),
          .panicked (ascii "implement me") fs⟩ := by
  intro fuel
  induction fuel with
  | zero =>
    intro m out _ hf
    omega
  | succ fuel ih =>
    intro m out hm hf
    rw [listPartsLoop_step blobs pageSize fs fuel m out hm]
    by_cases hlt : pageSize < (blobs.drop (markerOffset m)).length
    · rw [if_pos hlt]
      have hnd : Marker.NotDone ⟨some (List.replicate (markerOffset m + pageSize) 1)⟩ = true := by
        have hpos : markerOffset m + pageSize ≠ 0 := by omega
        simp [Marker.NotDone, hpos]
      have hoff : markerOffset ⟨some (List.replicate (markerOffset m + pageSize) 1)⟩
          = markerOffset m + pageSize := by
        simp [markerOffset]
      have hlen : (blobs.drop (markerOffset m + pageSize)).length + 1 < fuel := by
        rw [List.length_drop] at hf hlt ⊢
        omega
      rw [ih _ _ hnd (by rw [hoff]; exact hlen), hoff, List.append_assoc,
        ← List.map_append, ← List.drop_drop, List.take_append_drop]
    · rw [if_neg hlt]
      obtain ⟨k, rfl⟩ : ∃ k, fuel = k + 1 := ⟨fuel - 1, by omega⟩
      rw [listPartsLoop_done _ _ _ _ _ (by simp [Marker.NotDone]),
        List.take_of_length_le (by omega)]

/-- C9, counterexample: on a Ready handle and a store holding `a`, `b`, `c`
served two at a time without a fetch error, `ListParts` prints the three names
and panics with `implement me`; it returns no Parts and no error. -/
theorem C9_listParts_panics :
    ListParts (pagedStore [ascii "a", ascii "b", ascii "c"] 2) 4 readyFS
      = some ⟨[ascii "\tBlob name: a\n", ascii "\tBlob name: b\n", ascii "\tBlob name: c\n"],
          .panicked (ascii "implement me") readyFS⟩ := by
  decide

/-- From a marker that is not done, over a service that serves the segments
`pages` from that marker on, the loop prints the line of every blob of every
segment, in order, and then reaches `panic("implement me")`. -/
theorem listPartsLoop_servesPages (svc : BlobService) (fs : FS) :
    ∀ (pages : List (List BlobItem)) (fuel : Nat) (m : Marker) (out : List GoString),
      m.NotDone = true → servesPages svc m pages = true → pages.length < fuel →
      listPartsLoop svc fs fuel m out =
        some ⟨out ++ pages.flatten.map blobLine, .panicked (ascii "implement me") fs⟩ := by
  intro pages
  induction pages with
  | nil =>
    intro fuel m out _ hs _
    simp [servesPages] at hs
  | cons items rest ih =>
    intro fuel m out hm hs hf
    obtain ⟨k, rfl⟩ : ∃ k, fuel = k + 1 := ⟨fuel - 1, by simp at hf; omega⟩
    rw [servesPages] at hs
    rw [listPartsLoop, if_pos hm]
    cases hsvc : svc m with
    | error err =>
      rw [hsvc] at hs
      simp at hs
    | ok r =>
      rw [hsvc] at hs
      simp only [Bool.and_eq_true, beq_iff_eq] at hs
      obtain ⟨hitems, hnext⟩ := hs
      simp only [handleErrors, List.append_nil]
      by_cases hnd : r.NextMarker.NotDone = true
      · rw [if_pos hnd] at hnext
        rw [ih k r.NextMarker _ hnd hnext (by simp at hf; omega), hitems]
        simp [List.append_assoc]
      · rw [if_neg hnd] at hnext
        have hrest : rest = [] := by simpa using hnext
        subst hrest
        obtain ⟨k2, rfl⟩ : ∃ k2, k = k2 + 1 := ⟨k - 1, by simp at hf; omega⟩
        rw [listPartsLoop_done _ _ _ _ _ (by simpa using hnd), hitems]
        simp

/-- C9, as amended: for every blob service that delivers the store's contents
as a finite sequence of pages without a fetch error (pages of any sizes, empty
ones included), `ListParts` on a Ready handle fetches every page, prints one
line for every stored blob, each exactly once and in the store's listing
order, and then panics with `implement me`: it returns neither a sequence of
Parts nor an error, and leaves the handle unchanged. -/
theorem C9_listParts_prints_all_then_panics (svc : BlobService)
    (pages : List (List BlobItem)) (fuel : Nat) (fs : FS)
    (hready : fs.containerURL ≠ none)
    (hpages : servesPages svc ⟨none⟩ pages = true)
    (hfuel : pages.length < fuel) :
    ListParts svc fuel fs =
      some ⟨pages.flatten.map blobLine, .panicked (ascii "implement me") fs⟩ := by
  unfold ListParts
  cases hc : fs.containerURL with
  | none => exact absurd hc hready
  | some c =>
    have h := listPartsLoop_servesPages svc fs pages fuel ⟨none⟩ [] rfl hpages hfuel
    simpa using h

/-- C9, witness: a store that serves `a`, then an empty page, then `b`. -/
theorem C9_listParts_prints_all_then_panics_witness :
    ListParts (chainStore [[ascii "a"], [], [ascii "b"]]) 4 readyFS =
      some ⟨[ascii "\tBlob name: a\n", ascii "\tBlob name: b\n"],
        .panicked (ascii "implement me") readyFS⟩ :=
  C9_listParts_prints_all_then_panics (chainStore [[ascii "a"], [], [ascii "b"]])
    [[⟨ascii "a"⟩], [], [⟨ascii "b"⟩]] 4 readyFS (by decide) (by decide) (by decide)

/-- C10, counterexample: on a Ready handle `DeletePart` panics with
`implement me`, on the first call and on the second; neither call returns
success. -/
theorem C10_deletePart_panics :
    DeletePart readyFS ⟨ascii "data/part_0", 4, ascii "f00d"⟩
        = .panicked (ascii "implement me") readyFS ∧
      DeletePart (DeletePart readyFS ⟨ascii "data/part_0", 4, ascii "f00d"⟩).state
          ⟨ascii "data/part_0", 4, ascii "f00d"⟩
        = .panicked (ascii "implement me") readyFS := by
  decide

/-- C10, as amended: `DeletePart` is not implemented. For every handle and
every Part, a call panics with `implement me` and leaves the handle as it was,
and so does a second call with the same Part; no call returns. -/
theorem C10_deletePart_always_panics (fs : FS) (p : Part) :
    DeletePart fs p = .panicked (ascii "implement me") fs ∧
      DeletePart (DeletePart fs p).state p = .panicked (ascii "implement me") fs ∧
      ∀ e fs1, DeletePart fs p ≠ .returned e fs1 := by
  refine ⟨rfl, rfl, ?_⟩
  intro e fs1 h
  cases h

end AzureBlobRemote
